import Mathlib

/-!
Verification of the upload orchestration engine of `duld/drive.py`
(class `DriveUploader` and the module-level helpers `md5sum`, `job_guard`).

The engine is asynchronous Python talking to external collaborators (the
remote drive, an HTTP client, the local filesystem, the settings module).
We embed it shallowly:

* every collaborator operation is an oracle stored in an `Env` record,
  returning `Except Err _` because any remote call may raise;
* an engine computation is a value of `M α = List Eff × Except Err α`:
  the list records the collaborator calls performed (in order) and the
  `Except` is the returned value or the escaping Python exception;
* logging (`INFO`/`WARNING`/`ERROR`/`EXCEPTION`) is not recorded: log
  statements have no effect the claims depend on beyond existing;
* the local filesystem is a `LocalEntry` tree (`pathlib.Path` classified
  at upload time as missing / file / directory, `iterdir` giving the
  listed children in order), reached from a path string via `Env.fs`;
* the active-job set `self._jobs` is threaded explicitly as a
  `List String` of keys.
-/

namespace Duld

/-- Python exceptions are opaque to the engine; a message suffices. -/
abbrev Err := String

/-- One collaborator call performed by the engine, as observable effects:
remote-drive calls (`sync`, lookups, `create_folder`, `upload_from_local`,
`trash_node_by_id`, `get_path`, `get_hasher`), the HTTP fetch of the
dynamic exclusion patterns, and the local hashing step (`md5sum` in the
process pool). -/
inductive Eff where
  | sync
  | getNodeByPath (path : String)
  | getNodeByName (name : String) (parentId : Nat)
  | createFolder (parentId : Nat) (name : String)
  | getPath (nodeId : Nat)
  | uploadFromLocal (parentId : Nat) (name : String)
  | trashNode (nodeId : Nat)
  | fetchExclude
  | getHasher
  | hashLocal (content : String)
deriving DecidableEq, Repr

/-- Remote write operations: folder creation, file upload, trashing.
Everything else is a read. -/
def Eff.isWrite : Eff → Bool
  | Eff.createFolder _ _ => true
  | Eff.uploadFromLocal _ _ => true
  | Eff.trashNode _ => true
  | _ => false

/-- An engine computation: the trace of collaborator calls it performed,
and either its value or the Python exception escaping it. -/
abbrev M (α : Type) := List Eff × Except Err α

/-- Sequencing of engine computations: an escaping exception skips the
continuation (its effects never happen); otherwise the traces concatenate. -/
def mbind {α β : Type} (x : M α) (f : α → M β) : M β :=
  match x with
  | (t, Except.error e) => (t, Except.error e)
  | (t, Except.ok a) => (t ++ (f a).1, (f a).2)

/-- A computation with no effects that returns `a`. -/
def mpure {α : Type} (a : α) : M α := ([], Except.ok a)

/-- One collaborator call: it is recorded in the trace, and the
environment decides its outcome. -/
def call {α : Type} (e : Eff) (r : Except Err α) : M α := ([e], r)

/-- The remote node handle as consumed by the engine: identity, the
`is_folder`/`is_file` classification, the `trashed` flag and the reported
content hash (`hash_`). -/
structure RemoteNode where
  id_ : Nat
  isFolder : Bool
  trashed : Bool
  hash_ : String
deriving DecidableEq, Repr

/-- Python property `node.is_file` of the drive library. -/
def RemoteNode.is_file (n : RemoteNode) : Bool := !n.isFolder

/-- A local filesystem entry as the engine observes it:
`local_path.exists()` is false exactly for `missing`, `is_dir` holds for
`dir`, and `iterdir()` lists the children of a `dir` in order. A file
carries its byte content abstractly, as the input of `md5sum`. -/
inductive LocalEntry where
  | missing (name : String)
  | file (name : String) (content : String)
  | dir (name : String) (children : List LocalEntry)

/-- Python `local_path.name` (the basename). -/
def LocalEntry.name : LocalEntry → String
  | LocalEntry.missing n => n
  | LocalEntry.file n _ => n
  | LocalEntry.dir n _ => n

/-- The collaborators of the engine. Every remote operation returns
`Except Err _` because it may raise. `localHash` is the md5 digest of a
file content computed by `md5sum` with the drive's hasher;
`resolveFailures id` models the eventual consistency of `get_path` on a
freshly created folder: how many times `get_path id` fails (each failure
followed by a `sync`) before the canonical path resolves — the
time-varying outcome that drives the `while True` polling loop of
`_upload_directory`. `excludePattern`/`excludeUrl` are the settings keys;
`fetchPatterns` is the JSON body (its pattern values) served by
`exclude_url`. -/
structure Env where
  fs : String → LocalEntry
  getNodeByPath : String → Except Err (Option RemoteNode)
  getNodeByName : String → Nat → Except Err (Option RemoteNode)
  createFolder : Nat → String → Except Err (Option RemoteNode)
  getPath : Nat → Except Err String
  uploadFromLocal : Nat → String → Except Err RemoteNode
  trashNode : Nat → Except Err Unit
  getHasher : Except Err Unit
  localHash : String → String
  syncRes : Except Err Nat
  resolveFailures : Nat → Nat
  excludePattern : List String
  excludeUrl : Bool
  fetchPatterns : Except Err (List String)

/-- Number of upload attempts of `_upload_file_retry` (`RETRY_TIMES = 3`). -/
def RETRY_TIMES : Nat := 3

/-- Python `pathlib.Path(a, b)` joining used by the engine. -/
def joinPath (a b : String) : String := a ++ "/" ++ b

/-- Character content of a string with ASCII case folded, as
`re.IGNORECASE` folds the engine's patterns and candidate names. -/
def strLower (s : String) : List Char := s.data.map Char.toLower

/-- Anchored match of a pattern's characters at the start of a name's
characters. -/
def listStartsWith : List Char → List Char → Bool
  | [], _ => true
  | _ :: _, [] => false
  | a :: as, b :: bs => a == b && listStartsWith as bs

/-- Model of `re.match(pattern, name, re.IGNORECASE)` for the literal
patterns the engine is configured with: a case-insensitive match anchored
at the start of `name`. -/
def reMatch (pattern name : String) : Bool :=
  listStartsWith (strLower pattern) (strLower name)

/-- `DriveUploader._sync`: takes the sync lock (serialization is not
observable in this sequential embedding), drains the change feed counting
the change batches, and logs the count. The remote call may raise. -/
def syncM (env : Env) : M Unit :=
  mbind (call Eff.sync env.syncRes) fun _ => mpure ()

/-- `DriveUploader._should_exclude`: first each static pattern from
`settings['exclude_pattern']`, returning `True` on the first match; only
then, if `settings['exclude_url']` is configured, fetch the dynamic
pattern set over HTTP (every call, no caching) and match those. The HTTP
fetch may raise and is not guarded. -/
def shouldExcludeM (env : Env) (name : String) : M Bool :=
  if env.excludePattern.any (fun p => reMatch p name) then mpure true
  else if env.excludeUrl then
    mbind (call Eff.fetchExclude env.fetchPatterns) fun pats =>
    mpure (pats.any (fun p => reMatch p name))
  else mpure false

/-- `DriveUploader._verify_remote_file`: obtain the drive's hasher,
compute the local file's digest in the process pool (`md5sum`), and
compare with the remote-reported hash; a mismatch is logged and reported
as `False`. -/
def verifyM (env : Env) (content remotePath remoteHash : String) : M Bool :=
  mbind (call Eff.getHasher env.getHasher) fun _ =>
  mbind (call (Eff.hashLocal content) (Except.ok ())) fun _ =>
  if env.localHash content ≠ remoteHash then mpure false else mpure true

/-- The fresh-upload block of `DriveUploader._upload_file` (taken when no
child exists or the child is trashed): extract the media metadata (an
opaque local input folded into the upload call), run `upload_from_local`,
then verify the resulting node's hash; failure of the verification is
`False`, otherwise the function returns `True`. -/
def uploadFreshM (env : Env) (parentId : Nat)
    (fileName content remotePath : String) : M Bool :=
  mbind (call (Eff.uploadFromLocal parentId fileName)
              (env.uploadFromLocal parentId fileName)) fun newNode =>
  verifyM env content remotePath newNode.hash_

/-- `DriveUploader._upload_file`: compute the would-be remote path (a
`get_path` on the parent, for logging), look the child up by name; if a
non-trashed child exists it must be a file (else `False`) and its hash
must verify (else `False`), and on success no re-upload happens; if there
is no child or it is trashed, upload fresh and verify. -/
def uploadFileM (env : Env) (node : RemoteNode)
    (fileName content : String) : M Bool :=
  mbind (call (Eff.getPath node.id_) (env.getPath node.id_)) fun parentPath =>
  mbind (call (Eff.getNodeByName fileName node.id_)
              (env.getNodeByName fileName node.id_)) fun child =>
  match child with
  | some c =>
    if c.trashed then
      uploadFreshM env node.id_ fileName content (joinPath parentPath fileName)
    else if c.isFolder then mpure false
    else
      mbind (verifyM env content (joinPath parentPath fileName) c.hash_) fun v =>
      if v then mpure true else mpure false
  | none =>
    uploadFreshM env node.id_ fileName content (joinPath parentPath fileName)

/-- The loop body of `DriveUploader._upload_file_retry`, generic in the
attempt (the `k`-th call of `_upload_file`) and in the sync step: an
attempt that raises is caught and logged (its effects stand), a sync is
forced, and the loop continues; an attempt that returns ends the loop
with that value; an exhausted budget (`for`/`else`) logs and returns
`False`. -/
def uploadFileRetryGo (attempt : Nat → M Bool) (syncA : M Unit) :
    Nat → Nat → M Bool
  | _, 0 => mpure false
  | k, fuel + 1 =>
    match attempt k with
    | (t, Except.ok r) => (t, Except.ok r)
    | (t, Except.error _) =>
      mbind ((t, Except.ok ()) : M Unit) fun _ =>
      mbind syncA fun _ =>
      uploadFileRetryGo attempt syncA (k + 1) fuel

/-- `DriveUploader._upload_file_retry`: run `_upload_file` up to
`RETRY_TIMES` times, with `_sync` after every attempt that raised. -/
def uploadFileRetryM (env : Env) (node : RemoteNode)
    (fileName content : String) : M Bool :=
  uploadFileRetryGo (fun _ => uploadFileM env node fileName content)
    (syncM env) 0 RETRY_TIMES

/-- The `while True` polling loop of `_upload_directory` after a folder
creation: try `get_path` on the new folder, breaking on success; a
failure is swallowed and followed by a `_sync` (which itself may raise),
then the loop retries. The fuel is `Env.resolveFailures` of the node: the
number of failing lookups before the remote metadata converges; a remote
that never converges loops forever and is outside this total model. -/
def pollResolveM (env : Env) (nodeId : Nat) : Nat → M Unit
  | 0 => mbind (call (Eff.getPath nodeId) (Except.ok ())) fun _ => mpure ()
  | n + 1 =>
    mbind (call (Eff.getPath nodeId) (Except.ok ())) fun _ =>
    mbind (syncM env) fun _ =>
    pollResolveM env nodeId n

/-- The find-or-create part of `_upload_directory` for the branch where a
remote folder must be created: `create_folder`, on a null result a
`get_path` of the parent for the error log and failure (`none`), else the
polling loop until the new folder's path resolves. -/
def createFolderM (env : Env) (node : RemoteNode) (dirName : String) :
    M (Option RemoteNode) :=
  mbind (call (Eff.createFolder node.id_ dirName)
              (env.createFolder node.id_ dirName)) fun created =>
  match created with
  | none =>
    mbind (call (Eff.getPath node.id_) (env.getPath node.id_)) fun _ =>
    mpure none
  | some cn =>
    mbind (pollResolveM env cn.id_ (env.resolveFailures cn.id_)) fun _ =>
    mpure (some cn)

mutual

/-- `DriveUploader._upload`: the exclusion check on the basename comes
first (a match is success with no further action), then the existence
check (a vanished path is failure), then dispatch on directory vs file. -/
def uploadM (env : Env) (node : RemoteNode) (e : LocalEntry) : M Bool :=
  mbind (shouldExcludeM env e.name) fun ex =>
  if ex then mpure true
  else
    match e with
    | LocalEntry.missing _ => mpure false
    | LocalEntry.dir name children => uploadDirectoryM env node name children
    | LocalEntry.file name content => uploadFileRetryM env node name content
termination_by (sizeOf e, 0)

/-- `DriveUploader._upload_directory`: look the name up under the parent;
an existing file child is a type collision (a `get_path` for the log,
then failure); a missing, trashed child — or a trashed parent — triggers
folder creation (with failure when creation returns null); then every
local child is uploaded in `iterdir` order, aggregating success as a
logical AND while continuing past failures. -/
def uploadDirectoryM (env : Env) (node : RemoteNode) (dirName : String)
    (children : List LocalEntry) : M Bool :=
  mbind (call (Eff.getNodeByName dirName node.id_)
              (env.getNodeByName dirName node.id_)) fun child =>
  match child with
  | some c =>
    if c.is_file then
      mbind (call (Eff.getPath c.id_) (env.getPath c.id_)) fun _ => mpure false
    else if c.trashed || node.trashed then
      mbind (createFolderM env node dirName) fun r =>
      match r with
      | none => mpure false
      | some cn => uploadChildrenM env cn children
    else uploadChildrenM env c children
  | none =>
    mbind (createFolderM env node dirName) fun r =>
    match r with
    | none => mpure false
    | some cn => uploadChildrenM env cn children
termination_by (sizeOf children, 1)

/-- The child loop of `_upload_directory`: upload each child in order
into the resolved remote folder, and return the conjunction of the
results (`all_ok`); an exception escaping a child's upload propagates. -/
def uploadChildrenM (env : Env) (node : RemoteNode) (l : List LocalEntry) :
    M Bool :=
  match l with
  | [] => mpure true
  | c :: rest =>
    mbind (uploadM env node c) fun ok =>
    mbind (uploadChildrenM env node rest) fun r =>
    mpure (ok && r)
termination_by (sizeOf l, 0)

end

/-- `DriveUploader._try_resolve_name_confliction` (not reached from the
two public entry points): look the name up; nothing there is success;
otherwise trash the node, swallowing a trashing failure as `False`. The
initial lookup is not guarded and may raise. -/
def tryResolveNameConflictionM (env : Env) (nodeId : Nat) (name : String) :
    M Bool :=
  mbind (call (Eff.getNodeByName name nodeId) (env.getNodeByName name nodeId))
    fun found =>
  match found with
  | none => mpure true
  | some c =>
    match env.trashNode c.id_ with
    | Except.ok _ => ([Eff.trashNode c.id_], Except.ok true)
    | Except.error _ => ([Eff.trashNode c.id_], Except.ok false)

/-- `set.add` of the job registry (a Python set: adding a present key is
a no-op). -/
def insertKey (k : String) (s : List String) : List String :=
  if k ∈ s then s else k :: s

/-- `set.discard` of the job registry. -/
def discardKey (k : String) (s : List String) : List String := s.erase k

/-- The per-item loop of `upload_torrent`: upload every item into the
target node, aggregating success as a logical AND while continuing past
failures. -/
def uploadItems (env : Env) (node : RemoteNode) : List String → M Bool
  | [] => mpure true
  | p :: rest =>
    mbind (uploadM env node (env.fs p)) fun ok =>
    mbind (uploadItems env node rest) fun r =>
    mpure (ok && r)

/-- `DriveUploader.upload_path`: a key already in the job registry is
refused with `False` and only a log; otherwise the key is held by
`job_guard` (added now, discarded on every exit of the body, exceptional
or not), the remote view is synced, the target path is resolved (absence
is failure), and the recursive upload of the local path runs. The
returned pair is (body computation, job registry after the call). -/
def upload_path (env : Env) (jobs : List String)
    (remotePath localPath : String) : M Bool × List String :=
  if localPath ∈ jobs then (mpure false, jobs)
  else
    (mbind (syncM env) fun _ =>
     mbind (call (Eff.getNodeByPath remotePath)
                 (env.getNodeByPath remotePath)) fun node =>
     match node with
     | none => mpure false
     | some n => uploadM env n (env.fs localPath),
     discardKey localPath (insertKey localPath jobs))

/-- `DriveUploader.upload_torrent`: as `upload_path` but keyed by the
torrent id, uploading each of `root_items` (joined under `torrent_root`)
into the target node and AND-aggregating the results. -/
def upload_torrent (env : Env) (jobs : List String)
    (remotePath torrentId torrentRoot : String)
    (rootItems : List String) : M Bool × List String :=
  if torrentId ∈ jobs then (mpure false, jobs)
  else
    (mbind (syncM env) fun _ =>
     mbind (call (Eff.getNodeByPath remotePath)
                 (env.getNodeByPath remotePath)) fun node =>
     match node with
     | none => mpure false
     | some n => uploadItems env n (rootItems.map (fun it => joinPath torrentRoot it)),
     discardKey torrentId (insertKey torrentId jobs))

/-- The boolean a computation reports to its caller: its value, with an
escaping exception read as failure (used only to state aggregates). -/
def mres (x : M Bool) : Bool :=
  match x.2 with
  | Except.ok b => b
  | Except.error _ => false

/-- A concrete remote root folder, used by the witnesses. -/
def nodeRoot : RemoteNode := ⟨1, true, false, "rootHash"⟩

/-- A concrete existing remote file whose reported hash disagrees with
the local digest of any content. -/
def child7 : RemoteNode := ⟨7, false, false, "otherHash"⟩

/-- A concrete existing remote file whose reported hash equals the local
digest of the content `B`. -/
def child8 : RemoteNode := ⟨8, false, false, "md5-B"⟩

/-- A concrete well-behaved collaborator environment for the witnesses:
the target path resolves to `nodeRoot`, no remote children exist, uploads
succeed, the local hasher digests content `c` to `md5-c`, one static
exclusion pattern `skip`, no dynamic pattern source. -/
def envA : Env :=
  { fs := fun p => LocalEntry.missing p,
    getNodeByPath := fun _ => Except.ok (some nodeRoot),
    getNodeByName := fun _ _ => Except.ok none,
    createFolder := fun _ _ => Except.ok none,
    getPath := fun _ => Except.ok "/remote",
    uploadFromLocal := fun _ n => Except.ok ⟨9, false, false, "md5-" ++ n⟩,
    trashNode := fun _ => Except.ok (),
    getHasher := Except.ok (),
    localHash := fun c => "md5-" ++ c,
    syncRes := Except.ok 0,
    resolveFailures := fun _ => 0,
    excludePattern := ["skip"],
    excludeUrl := false,
    fetchPatterns := Except.ok [] }

/-- `envA` with a change feed whose `sync` raises. -/
def envSyncBoom : Env := { envA with syncRes := Except.error "sync boom" }

/-- `envA` with a remote whose `get_path` raises, so every
`_upload_file` attempt raises. -/
def envPathBoom : Env := { envA with getPath := fun _ => Except.error "stale metadata" }

/-- `envA` where the looked-up child is the mismatching file `child7`. -/
def envMismatch : Env := { envA with getNodeByName := fun _ _ => Except.ok (some child7) }

/-- `envA` where the looked-up child is the matching file `child8`. -/
def envMatch : Env := { envA with getNodeByName := fun _ _ => Except.ok (some child8) }

/-! Helper lemmas about the monad and the retry loop, shared by the
claim theorems. -/

theorem mbind_eq_ok {α β : Type} (x : M α) (f : α → M β) (a : α)
    (h : x.2 = Except.ok a) : mbind x f = (x.1 ++ (f a).1, (f a).2) := by
  rcases x with ⟨t, r⟩
  cases r with
  | ok b => cases h; rfl
  | error e => simp at h

theorem mbind_eq_err {α β : Type} (x : M α) (f : α → M β) (e : Err)
    (h : x.2 = Except.error e) : mbind x f = (x.1, Except.error e) := by
  rcases x with ⟨t, r⟩
  cases r with
  | ok b => simp at h
  | error e2 => cases h; rfl

theorem go_first_ok (att : Nat → M Bool) (sy : M Unit) (k fuel : Nat)
    (t : List Eff) (b : Bool) (h : att k = (t, Except.ok b)) :
    uploadFileRetryGo att sy k (fuel + 1) = (t, Except.ok b) := by
  simp [uploadFileRetryGo, h]

theorem go_step_err (att : Nat → M Bool) (sy : M Unit) (k fuel : Nat)
    (t : List Eff) (e : Err) (h : att k = (t, Except.error e)) :
    uploadFileRetryGo att sy k (fuel + 1) =
      mbind ((t, Except.ok ()) : M Unit) fun _ =>
      mbind sy fun _ => uploadFileRetryGo att sy (k + 1) fuel := by
  simp [uploadFileRetryGo, h]

theorem go_err_all (att : Nat → M Bool) (t : List Eff) (e : Err)
    (h : ∀ k, att k = (t, Except.error e)) :
    ∀ fuel k,
      (uploadFileRetryGo att ([Eff.sync], Except.ok ()) k fuel).2 =
        Except.ok false := by
  intro fuel
  induction fuel with
  | zero => intro k; rfl
  | succ m ih =>
    intro k
    rw [go_step_err att ([Eff.sync], Except.ok ()) k m t e (h k)]
    simpa [mbind] using ih (k + 1)

/-- C1: a key that is already in the active-job registry makes
`upload_path` (keyed by the local path) and `upload_torrent` (keyed by
the torrent id) return `False` at once, with an empty effect trace — no
sync, no remote lookup, no upload; the only side effect of that path is
the "still uploading" log line, which the embedding does not record —
and with the registry unchanged. -/
theorem upload_dedup_no_side_effects (env : Env) (jobs : List String)
    (rp lp tid troot : String) (items : List String)
    (h1 : lp ∈ jobs) (h2 : tid ∈ jobs) :
    upload_path env jobs rp lp = (([], Except.ok false), jobs) ∧
    upload_torrent env jobs rp tid troot items = (([], Except.ok false), jobs) := by
  constructor
  · simp [upload_path, h1, mpure]
  · simp [upload_torrent, h2, mpure]

theorem upload_dedup_no_side_effects_witness :
    upload_path envA ["k"] "/r" "k" = (([], Except.ok false), ["k"]) ∧
    upload_torrent envA ["k"] "/r" "k" "/t" ["x"] = (([], Except.ok false), ["k"]) :=
  upload_dedup_no_side_effects envA ["k"] "/r" "k" "k" "/t" ["x"]
    (by decide) (by decide)

/-- C2: when a call actually begins a request (its key is not already
active), the key is inserted at request start and discarded on every exit
of `job_guard` — by construction of the embedding the registry component
of the result does not depend on the body's outcome, so this covers a
`True` return, a `False` return, and an exception escaping the body —
and afterwards the registry equals the initial one, with the key absent. -/
theorem job_registry_no_leak (env : Env) (jobs : List String)
    (rp lp tid troot : String) (items : List String)
    (h1 : lp ∉ jobs) (h2 : tid ∉ jobs) :
    (upload_path env jobs rp lp).2 = jobs ∧
    lp ∉ (upload_path env jobs rp lp).2 ∧
    (upload_torrent env jobs rp tid troot items).2 = jobs ∧
    tid ∉ (upload_torrent env jobs rp tid troot items).2 := by
  have e1 : (upload_path env jobs rp lp).2 = jobs := by
    simp [upload_path, h1, insertKey, discardKey, List.erase_cons_head]
  have e2 : (upload_torrent env jobs rp tid troot items).2 = jobs := by
    simp [upload_torrent, h2, insertKey, discardKey, List.erase_cons_head]
  exact ⟨e1, by rw [e1]; exact h1, e2, by rw [e2]; exact h2⟩

theorem job_registry_no_leak_witness :
    (upload_path envSyncBoom [] "/r" "/d/f").2 = [] ∧
    "/d/f" ∉ (upload_path envSyncBoom [] "/r" "/d/f").2 ∧
    (upload_torrent envSyncBoom [] "/r" "t9" "/t" ["a"]).2 = [] ∧
    "t9" ∉ (upload_torrent envSyncBoom [] "/r" "t9" "/t" ["a"]).2 :=
  job_registry_no_leak envSyncBoom [] "/r" "/d/f" "t9" "/t" ["a"]
    (by decide) (by decide)

/-- C8: a name matching a static exclusion pattern makes the recursive
upload of that entry report success with an empty effect trace: no remote
lookup of the name, no upload, and in particular no HTTP fetch of the
dynamic pattern set — the static patterns are matched first
(case-insensitively, any single match short-circuiting to true) and a
match returns before the remote pattern source is consulted. -/
theorem static_exclusion_no_remote_calls (env : Env) (node : RemoteNode)
    (e : LocalEntry)
    (h : (env.excludePattern.any fun p => reMatch p e.name) = true) :
    uploadM env node e = ([], Except.ok true) := by
  cases e <;> (simp only [uploadM]; simp [shouldExcludeM, h, mbind, mpure])

theorem static_exclusion_no_remote_calls_witness :
    uploadM envA nodeRoot (LocalEntry.file "SKIPme.txt" "data") =
      ([], Except.ok true) :=
  static_exclusion_no_remote_calls envA nodeRoot
    (LocalEntry.file "SKIPme.txt" "data") rfl

/-- C9: the exclusion check precedes the existence check in `_upload`,
so an excluded entry reports success even when its local path does not
exist on disk; the local-missing failure branch is reached exactly when
the exclusion check answers false. -/
theorem exclusion_checked_before_existence (env : Env) (node : RemoteNode)
    (nm : String) :
    (∀ t, shouldExcludeM env nm = (t, Except.ok true) →
      uploadM env node (LocalEntry.missing nm) = (t, Except.ok true)) ∧
    (∀ t, shouldExcludeM env nm = (t, Except.ok false) →
      uploadM env node (LocalEntry.missing nm) = (t, Except.ok false)) := by
  constructor <;> intro t h <;> simp only [uploadM] <;>
    simp [LocalEntry.name, h, mbind, mpure]

theorem exclusion_checked_before_existence_witness :
    uploadM envA nodeRoot (LocalEntry.missing "skipZZ") =
      ([], Except.ok true) :=
  (exclusion_checked_before_existence envA nodeRoot "skipZZ").1 [] rfl

/-- C10: `upload_torrent` with an empty item list, a fresh key and a
resolvable target performs exactly the initial sync and the target
lookup, then returns `True` (the AND aggregate over zero items is
vacuously true), with the registry restored and no per-item upload
operation. -/
theorem empty_torrent_vacuous_true (env : Env) (jobs : List String)
    (rp tid troot : String) (n : RemoteNode) (cnt : Nat)
    (hj : tid ∉ jobs) (hs : env.syncRes = Except.ok cnt)
    (hn : env.getNodeByPath rp = Except.ok (some n)) :
    upload_torrent env jobs rp tid troot [] =
      (([Eff.sync, Eff.getNodeByPath rp], Except.ok true), jobs) := by
  simp [upload_torrent, hj, syncM, call, mbind, mpure, hs, hn, uploadItems,
    insertKey, discardKey, List.erase_cons_head]

theorem empty_torrent_vacuous_true_witness :
    upload_torrent envA [] "/r" "t1" "/t" [] =
      (([Eff.sync, Eff.getNodeByPath "/r"], Except.ok true), []) :=
  empty_torrent_vacuous_true envA [] "/r" "t1" "/t" nodeRoot 0
    (by decide) rfl rfl

/-- C4: uploading a file whose non-trashed remote counterpart exists with
a matching content hash returns `True` after only reads — parent path,
child lookup, hasher, local digest — so zero remote write operations: no
upload, no folder creation, no trash. The embedding is deterministic in
the environment, so a second call on the same already-fully-uploaded file
satisfies the very same equation: `True` again with zero writes. -/
theorem upload_existing_match_no_writes (env : Env) (node c : RemoteNode)
    (fn content pp : String)
    (hgp : env.getPath node.id_ = Except.ok pp)
    (hlook : env.getNodeByName fn node.id_ = Except.ok (some c))
    (htr : c.trashed = false) (hfo : c.isFolder = false)
    (hh : env.getHasher = Except.ok ())
    (hmatch : env.localHash content = c.hash_) :
    uploadFileM env node fn content =
      ([Eff.getPath node.id_, Eff.getNodeByName fn node.id_, Eff.getHasher,
        Eff.hashLocal content], Except.ok true) ∧
    (uploadFileM env node fn content).1.all (fun ef => !ef.isWrite) = true := by
  have h1 : uploadFileM env node fn content =
      ([Eff.getPath node.id_, Eff.getNodeByName fn node.id_, Eff.getHasher,
        Eff.hashLocal content], Except.ok true) := by
    simp [uploadFileM, verifyM, joinPath, call, mbind, mpure, hgp, hlook, htr,
      hfo, hh, hmatch]
  exact ⟨h1, by rw [h1]; rfl⟩

theorem upload_existing_match_no_writes_witness :
    uploadFileM envMatch nodeRoot "b.txt" "B" =
      ([Eff.getPath 1, Eff.getNodeByName "b.txt" 1, Eff.getHasher,
        Eff.hashLocal "B"], Except.ok true) ∧
    (uploadFileM envMatch nodeRoot "b.txt" "B").1.all (fun ef => !ef.isWrite)
      = true :=
  upload_existing_match_no_writes envMatch nodeRoot child8 "b.txt" "B" "/remote"
    rfl rfl rfl rfl rfl rfl

/-- C5: a content-hash mismatch makes the single-file upload return
`False` without retrying and without re-uploading, in both places it can
arise. First clause: on an already-existing non-trashed remote file the
whole retried upload performs only reads and returns `False` — the retry
loop stops because the attempt returned instead of raising, so there is
exactly one attempt, no inter-attempt sync and no upload call at all.
Second clause: when the mismatch is detected after a fresh upload, the
trace holds exactly one upload call and the result is `False`, again with
no second attempt. -/
theorem hash_mismatch_fails_no_retry (env : Env) (node c u : RemoteNode)
    (fn content pp : String) :
    (env.getPath node.id_ = Except.ok pp →
     env.getNodeByName fn node.id_ = Except.ok (some c) →
     c.trashed = false → c.isFolder = false →
     env.getHasher = Except.ok () →
     env.localHash content ≠ c.hash_ →
     uploadFileRetryM env node fn content =
       ([Eff.getPath node.id_, Eff.getNodeByName fn node.id_, Eff.getHasher,
         Eff.hashLocal content], Except.ok false)) ∧
    (env.getPath node.id_ = Except.ok pp →
     env.getNodeByName fn node.id_ = Except.ok none →
     env.uploadFromLocal node.id_ fn = Except.ok u →
     env.getHasher = Except.ok () →
     env.localHash content ≠ u.hash_ →
     uploadFileRetryM env node fn content =
       ([Eff.getPath node.id_, Eff.getNodeByName fn node.id_,
         Eff.uploadFromLocal node.id_ fn, Eff.getHasher,
         Eff.hashLocal content], Except.ok false)) := by
  constructor
  · intro hgp hlook htr hfo hh hmm
    have hatt : uploadFileM env node fn content =
        ([Eff.getPath node.id_, Eff.getNodeByName fn node.id_, Eff.getHasher,
          Eff.hashLocal content], Except.ok false) := by
      simp [uploadFileM, verifyM, joinPath, call, mbind, mpure,
        hgp, hlook, htr, hfo, hh, hmm]
    exact go_first_ok (fun _ => uploadFileM env node fn content) (syncM env)
      0 2 _ false hatt
  · intro hgp hlook hup hh hmm
    have hatt : uploadFileM env node fn content =
        ([Eff.getPath node.id_, Eff.getNodeByName fn node.id_,
          Eff.uploadFromLocal node.id_ fn, Eff.getHasher,
          Eff.hashLocal content], Except.ok false) := by
      simp [uploadFileM, uploadFreshM, verifyM, joinPath, call, mbind, mpure,
        hgp, hlook, hup, hh, hmm]
    exact go_first_ok (fun _ => uploadFileM env node fn content) (syncM env)
      0 2 _ false hatt

theorem hash_mismatch_fails_no_retry_witness :
    uploadFileRetryM envMismatch nodeRoot "c.txt" "C" =
      ([Eff.getPath 1, Eff.getNodeByName "c.txt" 1, Eff.getHasher,
        Eff.hashLocal "C"], Except.ok false) :=
  (hash_mismatch_fails_no_retry envMismatch nodeRoot child7 child7 "c.txt" "C"
      "/remote").1 rfl rfl rfl rfl rfl (by decide)

/-- C7 counterexample: the claim says nothing propagates as an unhandled
fault to the caller of the two public entry points, but only exceptions
raised inside `_upload_file` attempts are caught anywhere along that
path: with a remote whose change-feed `sync` raises, `upload_path` itself
completes with an escaping exception (after the sync effect), at this
concrete input. -/
theorem public_entry_raises_cex :
    upload_path envSyncBoom [] "/remote" "/local" =
      (([Eff.sync], Except.error "sync boom"), []) := rfl

/-- C7 amended: the error containment the code actually provides is
narrower than claimed: an exception raised by an `_upload_file` attempt
is caught by the retry wrapper and converted to a boolean result — shown
here for any environment whose inter-attempt sync succeeds, whatever the
attempt does — but faults raised by the sync step, the target-path
lookup, the exclusion fetch or the directory operations are not caught
and propagate out of `upload_path`/`upload_torrent` (see the
counterexample). -/
theorem attempt_exceptions_confined (env : Env) (node : RemoteNode)
    (fn content : String) (n : Nat) (hs : env.syncRes = Except.ok n) :
    ∃ b, (uploadFileRetryM env node fn content).2 = Except.ok b := by
  have hsy : syncM env = ([Eff.sync], Except.ok ()) := by
    simp [syncM, call, mbind, mpure, hs]
  rcases hu : uploadFileM env node fn content with ⟨t, r⟩
  cases r with
  | ok b =>
    have hgo : uploadFileRetryM env node fn content = (t, Except.ok b) :=
      go_first_ok (fun _ => uploadFileM env node fn content) (syncM env)
        0 2 t b hu
    exact ⟨b, by rw [hgo]⟩
  | error e =>
    refine ⟨false, ?_⟩
    have h := go_err_all (fun _ => uploadFileM env node fn content) t e
      (fun _ => hu) RETRY_TIMES 0
    show (uploadFileRetryGo (fun _ => uploadFileM env node fn content)
        (syncM env) 0 RETRY_TIMES).2 = Except.ok false
    rw [hsy]
    exact h

theorem attempt_exceptions_confined_witness :
    ∃ b, (uploadFileRetryM envPathBoom nodeRoot "a.txt" "A").2 = Except.ok b :=
  attempt_exceptions_confined envPathBoom nodeRoot "a.txt" "A" 0 rfl

/-- C3: characterization of `_upload_file_retry` over an arbitrary
attempt behavior (`f k` the outcome of the `k`-th `_upload_file` call,
`tr k` its effect trace) with a succeeding sync step. In order: the loop
never lets an attempt's exception escape (the result is always a normal
boolean); an attempt that returns ends the loop at once with that value;
after one or two caught exceptions a returning attempt still ends the
loop, with one sync forced after each failed attempt; and when all
`RETRY_TIMES = 3` attempts raise, the result is `False` with exactly the
three attempt traces and three syncs in the trace — so at most 3 attempts
ever run, and a resynchronization follows every failed attempt including
the last. -/
theorem upload_file_retry_budget (f : Nat → Except Err Bool)
    (tr : Nat → List Eff) :
    (∃ b, (uploadFileRetryGo (fun k => (tr k, f k)) ([Eff.sync], Except.ok ())
        0 RETRY_TIMES).2 = Except.ok b) ∧
    (∀ b, f 0 = Except.ok b →
      uploadFileRetryGo (fun k => (tr k, f k)) ([Eff.sync], Except.ok ())
        0 RETRY_TIMES = (tr 0, Except.ok b)) ∧
    (∀ e0 b, f 0 = Except.error e0 → f 1 = Except.ok b →
      uploadFileRetryGo (fun k => (tr k, f k)) ([Eff.sync], Except.ok ())
        0 RETRY_TIMES = (tr 0 ++ Eff.sync :: tr 1, Except.ok b)) ∧
    (∀ e0 e1 b, f 0 = Except.error e0 → f 1 = Except.error e1 →
      f 2 = Except.ok b →
      uploadFileRetryGo (fun k => (tr k, f k)) ([Eff.sync], Except.ok ())
        0 RETRY_TIMES =
        (tr 0 ++ Eff.sync :: (tr 1 ++ Eff.sync :: tr 2), Except.ok b)) ∧
    (∀ e0 e1 e2, f 0 = Except.error e0 → f 1 = Except.error e1 →
      f 2 = Except.error e2 →
      uploadFileRetryGo (fun k => (tr k, f k)) ([Eff.sync], Except.ok ())
        0 RETRY_TIMES =
        (tr 0 ++ Eff.sync :: (tr 1 ++ Eff.sync :: (tr 2 ++ [Eff.sync])),
         Except.ok false)) := by
  have W2 : ∀ b, f 0 = Except.ok b →
      uploadFileRetryGo (fun k => (tr k, f k)) ([Eff.sync], Except.ok ())
        0 RETRY_TIMES = (tr 0, Except.ok b) := by
    intro b h0
    exact go_first_ok (fun k => (tr k, f k)) ([Eff.sync], Except.ok ()) 0 2
      (tr 0) b (by simp [h0])
  have W3 : ∀ e0 b, f 0 = Except.error e0 → f 1 = Except.ok b →
      uploadFileRetryGo (fun k => (tr k, f k)) ([Eff.sync], Except.ok ())
        0 RETRY_TIMES = (tr 0 ++ Eff.sync :: tr 1, Except.ok b) := by
    intro e0 b h0 h1
    have s1 : uploadFileRetryGo (fun k => (tr k, f k)) ([Eff.sync], Except.ok ())
        (0 + 1) 2 = (tr 1, Except.ok b) :=
      go_first_ok (fun k => (tr k, f k)) ([Eff.sync], Except.ok ()) (0 + 1) 1
        (tr 1) b (by simp [h1])
    have s0 := go_step_err (fun k => (tr k, f k)) ([Eff.sync], Except.ok ())
      0 2 (tr 0) e0 (by simp [h0])
    rw [show (RETRY_TIMES : Nat) = 2 + 1 from rfl, s0]
    simp only [s1]
    simp [mbind]
  have W4 : ∀ e0 e1 b, f 0 = Except.error e0 → f 1 = Except.error e1 →
      f 2 = Except.ok b →
      uploadFileRetryGo (fun k => (tr k, f k)) ([Eff.sync], Except.ok ())
        0 RETRY_TIMES =
        (tr 0 ++ Eff.sync :: (tr 1 ++ Eff.sync :: tr 2), Except.ok b) := by
    intro e0 e1 b h0 h1 h2
    have s2 : uploadFileRetryGo (fun k => (tr k, f k)) ([Eff.sync], Except.ok ())
        (0 + 1 + 1) 1 = (tr 2, Except.ok b) :=
      go_first_ok (fun k => (tr k, f k)) ([Eff.sync], Except.ok ()) (0 + 1 + 1) 0
        (tr 2) b (by simp [h2])
    have s1 : uploadFileRetryGo (fun k => (tr k, f k)) ([Eff.sync], Except.ok ())
        (0 + 1) 2 =
        mbind ((tr 1, Except.ok ()) : M Unit) fun _ =>
        mbind (([Eff.sync], Except.ok ()) : M Unit) fun _ =>
        uploadFileRetryGo (fun k => (tr k, f k)) ([Eff.sync], Except.ok ())
          (0 + 1 + 1) 1 :=
      go_step_err (fun k => (tr k, f k)) ([Eff.sync], Except.ok ()) (0 + 1) 1
        (tr 1) e1 (by simp [h1])
    have s0 := go_step_err (fun k => (tr k, f k)) ([Eff.sync], Except.ok ())
      0 2 (tr 0) e0 (by simp [h0])
    rw [show (RETRY_TIMES : Nat) = 2 + 1 from rfl, s0]
    simp only [s1, s2]
    simp [mbind]
  have W5 : ∀ e0 e1 e2, f 0 = Except.error e0 → f 1 = Except.error e1 →
      f 2 = Except.error e2 →
      uploadFileRetryGo (fun k => (tr k, f k)) ([Eff.sync], Except.ok ())
        0 RETRY_TIMES =
        (tr 0 ++ Eff.sync :: (tr 1 ++ Eff.sync :: (tr 2 ++ [Eff.sync])),
         Except.ok false) := by
    intro e0 e1 e2 h0 h1 h2
    have s3 : uploadFileRetryGo (fun k => (tr k, f k)) ([Eff.sync], Except.ok ())
        (0 + 1 + 1 + 1) 0 = ([], Except.ok false) := rfl
    have s2 : uploadFileRetryGo (fun k => (tr k, f k)) ([Eff.sync], Except.ok ())
        (0 + 1 + 1) 1 =
        mbind ((tr 2, Except.ok ()) : M Unit) fun _ =>
        mbind (([Eff.sync], Except.ok ()) : M Unit) fun _ =>
        uploadFileRetryGo (fun k => (tr k, f k)) ([Eff.sync], Except.ok ())
          (0 + 1 + 1 + 1) 0 :=
      go_step_err (fun k => (tr k, f k)) ([Eff.sync], Except.ok ()) (0 + 1 + 1) 0
        (tr 2) e2 (by simp [h2])
    have s1 : uploadFileRetryGo (fun k => (tr k, f k)) ([Eff.sync], Except.ok ())
        (0 + 1) 2 =
        mbind ((tr 1, Except.ok ()) : M Unit) fun _ =>
        mbind (([Eff.sync], Except.ok ()) : M Unit) fun _ =>
        uploadFileRetryGo (fun k => (tr k, f k)) ([Eff.sync], Except.ok ())
          (0 + 1 + 1) 1 :=
      go_step_err (fun k => (tr k, f k)) ([Eff.sync], Except.ok ()) (0 + 1) 1
        (tr 1) e1 (by simp [h1])
    have s0 := go_step_err (fun k => (tr k, f k)) ([Eff.sync], Except.ok ())
      0 2 (tr 0) e0 (by simp [h0])
    rw [show (RETRY_TIMES : Nat) = 2 + 1 from rfl, s0]
    simp only [s1, s2, s3]
    simp [mbind]
  refine ⟨?_, W2, W3, W4, W5⟩
  rcases h0 : f 0 with e0 | b0
  · rcases h1 : f 1 with e1 | b1
    · rcases h2 : f 2 with e2 | b2
      · exact ⟨false, by rw [W5 e0 e1 e2 h0 h1 h2]⟩
      · exact ⟨b2, by rw [W4 e0 e1 b2 h0 h1 h2]⟩
    · exact ⟨b1, by rw [W3 e0 b1 h0 h1]⟩
  · exact ⟨b0, by rw [W2 b0 h0]⟩

theorem upload_file_retry_budget_witness :
    uploadFileRetryGo
      (fun k => ([Eff.getPath k],
        if k < 2 then Except.error "transient" else Except.ok true))
      ([Eff.sync], Except.ok ()) 0 RETRY_TIMES =
      ([Eff.getPath 0, Eff.sync, Eff.getPath 1, Eff.sync, Eff.getPath 2],
       Except.ok true) := by
  have h := (upload_file_retry_budget
      (fun k => if k < 2 then Except.error "transient" else Except.ok true)
      (fun k => [Eff.getPath k])).2.2.2.1 "transient" "transient" true
      rfl rfl rfl
  simpa using h

/-- The cons step of the child loop when the first child's upload returns
normally and the rest of the loop returns normally. -/
theorem uploadChildrenM_cons_eq (env : Env) (cnode : RemoteNode)
    (ch : LocalEntry) (rest : List LocalEntry) (b : Bool) (t2 : List Eff)
    (a2 : Bool) (hb : (uploadM env cnode ch).2 = Except.ok b)
    (hr : uploadChildrenM env cnode rest = (t2, Except.ok a2)) :
    uploadChildrenM env cnode (ch :: rest) =
      ((uploadM env cnode ch).1 ++ t2, Except.ok (b && a2)) := by
  simp only [uploadChildrenM]
  rw [mbind_eq_ok (uploadM env cnode ch) _ b hb]
  simp [hr, mbind, mpure]

/-- C6: directory upload recurses into every entry and AND-aggregates the
results. First clause: when the remote child of the directory name exists
as a non-trashed folder (and the parent is not trashed),
`_upload_directory` is the name lookup followed by the child loop over
every local entry. Second clause: whenever no child's upload raises, the
child loop visits every child in `iterdir` order — its trace is the
concatenation of all children's traces, so it continues past individual
failures instead of failing fast — and returns the conjunction of the
per-child results: `False` exactly when at least one entry failed. -/
theorem directory_aggregate_and (env : Env) (node cnode c : RemoteNode)
    (dirName : String) (children : List LocalEntry) :
    (env.getNodeByName dirName node.id_ = Except.ok (some c) →
     c.isFolder = true → c.trashed = false → node.trashed = false →
     uploadDirectoryM env node dirName children =
       (Eff.getNodeByName dirName node.id_ ::
          (uploadChildrenM env c children).1,
        (uploadChildrenM env c children).2)) ∧
    ((∀ ch ∈ children, ∃ b, (uploadM env cnode ch).2 = Except.ok b) →
     uploadChildrenM env cnode children =
       ((children.map fun ch => (uploadM env cnode ch).1).flatten,
        Except.ok (children.all fun ch => mres (uploadM env cnode ch)))) := by
  constructor
  · intro hlook hfo htr hntr
    simp only [uploadDirectoryM]
    simp [call, mbind, hlook, RemoteNode.is_file, hfo, htr, hntr]
  · intro hall
    revert hall
    induction children with
    | nil => intro _; simp [uploadChildrenM, mpure]
    | cons ch rest ih =>
      intro hall
      obtain ⟨b, hb⟩ := hall ch (by simp)
      have hrest := ih (fun x hx => hall x (by simp [hx]))
      have hres : mres (uploadM env cnode ch) = b := by simp [mres, hb]
      rw [uploadChildrenM_cons_eq env cnode ch rest b _ _ hb hrest]
      simp [hres]

theorem directory_aggregate_and_witness :
    uploadChildrenM envA nodeRoot
      [LocalEntry.missing "skipA", LocalEntry.missing "other"] =
      ([], Except.ok false) := by
  have hv1 : uploadM envA nodeRoot (LocalEntry.missing "skipA") =
      ([], Except.ok true) := by
    simp only [uploadM]; rfl
  have hv2 : uploadM envA nodeRoot (LocalEntry.missing "other") =
      ([], Except.ok false) := by
    simp only [uploadM]; rfl
  have hall : ∀ ch ∈ [LocalEntry.missing "skipA", LocalEntry.missing "other"],
      ∃ b, (uploadM envA nodeRoot ch).2 = Except.ok b := by
    intro ch hch
    simp only [List.mem_cons, List.not_mem_nil, or_false] at hch
    rcases hch with h | h
    · subst h; exact ⟨true, by rw [hv1]⟩
    · subst h; exact ⟨false, by rw [hv2]⟩
  have h := (directory_aggregate_and envA nodeRoot nodeRoot nodeRoot "d"
      [LocalEntry.missing "skipA", LocalEntry.missing "other"]).2 hall
  rw [h]
  simp [hv1, hv2, mres]

end Duld
